import Mathlib

/-!
Verification of the IBC-AAKA scheme (pairing-based anonymous authenticated
key agreement) against its natural-language specification.

The development shallowly embeds the Rust sources:
  - hash_utils.rs : the domain-separated hash family H0..H5 over SHA3-256,
    with the counter-mode KDF loops of H2/H5 modelled exactly (including the
    100-iteration safety break);
  - rc.rs / user.rs / server.rs : the protocol algorithms, with group elements
    of G1, G2 and GT represented by their discrete logarithms with respect to
    the fixed generators (the groups have prime order, so the protocol algebra
    is faithfully the scalar-field algebra); randomness and the clock are
    passed as explicit arguments; fallible code returns Except;
  - lib.rs : the timestamp freshness check (with u64 subtraction modelled as
    checked subtraction, so a potential underflow panic would show up as
    Option.none) and the Shamir share layer of MasterSecretKey, where the
    third-party GF(256) sharing crate (blahaj) is abstracted by its contract
    and the byte (de)serialization of the two field elements is concrete.

SHA3-256 itself is implemented concretely (Keccak-f[1600]) so that the KDF
structure claims can be settled by evaluation on concrete inputs.
-/

set_option maxRecDepth 100000

/-! ## Byte-level primitives -/

/-- Big-endian 4-byte encoding of a u32 counter, as in `counter.to_be_bytes()`. -/
def be32 (c : Nat) : List Nat :=
  [c / 16777216 % 256, c / 65536 % 256, c / 256 % 256, c % 256]

/-- Big-endian 8-byte encoding of a u64 timestamp, as in `timestamp.to_be_bytes()`. -/
def be64 (t : Nat) : List Nat :=
  [t / 72057594037927936 % 256, t / 281474976710656 % 256, t / 1099511627776 % 256,
   t / 4294967296 % 256, t / 16777216 % 256, t / 65536 % 256, t / 256 % 256, t % 256]

/-- Big-endian interpretation of a byte string as a natural number. -/
def beNat (l : List Nat) : Nat := l.foldl (fun acc b => acc * 256 + b) 0

/-- Little-endian interpretation of a byte string as a natural number. -/
def leNat (l : List Nat) : Nat := l.foldr (fun b acc => acc * 256 + b) 0

/-- Little-endian byte encoding of a value into a fixed number of bytes. -/
def leBytesN : Nat → Nat → List Nat
  | 0, _ => []
  | k + 1, v => (v % 256) :: leBytesN k (v / 256)

/-! ## SHA3-256 (Keccak-f[1600]), bytes as `List Nat` -/

/-- All-ones 64-bit mask. -/
def mask64 : Nat := 18446744073709551615

/-- Left rotation on 64-bit lanes. -/
def rotl64 (v k : Nat) : Nat := ((v <<< k) ||| (v >>> (64 - k))) &&& mask64

/-- Lane lookup in a 25-lane Keccak state. -/
def lane (st : List Nat) (i : Nat) : Nat := st.getD i 0

/-- Source lane index of the combined rho-pi step, indexed by destination lane. -/
def piSrc : List Nat :=
  [0, 6, 12, 18, 24, 3, 9, 10, 16, 22, 1, 7, 13, 19, 20, 4, 5, 11, 17, 23, 2, 8, 14, 15, 21]

/-- Rotation amount of the combined rho-pi step, indexed by destination lane. -/
def piRot : List Nat :=
  [0, 44, 43, 21, 14, 28, 20, 3, 45, 61, 1, 6, 25, 8, 18, 27, 36, 10, 15, 56, 62, 55, 39, 41, 2]

/-- The 24 Keccak round constants. -/
def keccakRC : List Nat :=
  [1, 32898, 9223372036854808714, 9223372039002292224, 32907, 2147483649,
   9223372039002292353, 9223372036854808585, 138, 136, 2147516425, 2147483658,
   2147516555, 9223372036854775947, 9223372036854808713, 9223372036854808579,
   9223372036854808578, 9223372036854775936, 32778, 9223372039002259466,
   9223372039002292353, 9223372036854808704, 2147483649, 9223372039002292232]

/-- One Keccak round: theta, rho-pi, chi, iota. -/
def keccakRound (rc : Nat) (st : List Nat) : List Nat :=
  let c := fun x => lane st x ^^^ lane st (x + 5) ^^^ lane st (x + 10) ^^^
                    lane st (x + 15) ^^^ lane st (x + 20)
  let d := fun x => c ((x + 4) % 5) ^^^ rotl64 (c ((x + 1) % 5)) 1
  let a := (List.range 25).map fun i => lane st i ^^^ d (i % 5)
  let b := (List.range 25).map fun j => rotl64 (lane a (piSrc.getD j 0)) (piRot.getD j 0)
  let e := (List.range 25).map fun i =>
    lane b i ^^^ ((mask64 ^^^ lane b ((i % 5 + 1) % 5 + 5 * (i / 5))) &&& lane b ((i % 5 + 2) % 5 + 5 * (i / 5)))
  match e with
  | [] => []
  | h :: t => (h ^^^ rc) :: t

/-- The full Keccak-f[1600] permutation (24 rounds). -/
def keccakP (st : List Nat) : List Nat := keccakRC.foldl (fun s rc => keccakRound rc s) st

/-- Split a byte string whose length is a multiple of 136 into its rate blocks. -/
def chunks136 (l : List Nat) : List (List Nat) :=
  (List.range (l.length / 136)).map fun i => (l.drop (136 * i)).take 136

/-- SHA3 padding: append 0x06, zero fill, final 0x80 (0x86 if one byte is left). -/
def sha3pad (msg : List Nat) : List Nat :=
  let padLen := 136 - msg.length % 136
  if padLen = 1 then msg ++ [134]
  else msg ++ [6] ++ List.replicate (padLen - 2) 0 ++ [128]

/-- Absorb one 136-byte block: XOR into the first 17 lanes, then permute. -/
def absorbBlock (st : List Nat) (block : List Nat) : List Nat :=
  keccakP ((List.range 25).map fun i =>
    if i < 17 then lane st i ^^^ leNat ((block.drop (8 * i)).take 8) else lane st i)

/-- Little-endian 8-byte expansion of one 64-bit lane. -/
def lane8LE (v : Nat) : List Nat :=
  [v % 256, v / 256 % 256, v / 65536 % 256, v / 16777216 % 256,
   v / 4294967296 % 256, v / 1099511627776 % 256,
   v / 281474976710656 % 256, v / 72057594037927936 % 256]

/-- Squeeze the 32-byte digest from the first four lanes. -/
def squeeze32 (st : List Nat) : List Nat :=
  lane8LE (lane st 0) ++ lane8LE (lane st 1) ++ lane8LE (lane st 2) ++ lane8LE (lane st 3)

/-- SHA3-256 of a byte string. -/
def sha3_256 (msg : List Nat) : List Nat :=
  squeeze32 ((chunks136 (sha3pad msg)).foldl absorbBlock (List.replicate 25 0))

/-! ## Error type (lib.rs, enum AAKAError)

String payloads are carried so that the error branches of the embedding can be
told apart exactly as in the source.  Where the source interpolates a wrapped
library error into the message, the embedding uses a fixed message text. -/

inductive AAKAError where
  | Serialization : String → AAKAError
  | Deserialization : String → AAKAError
  | CryptoError : String → AAKAError
  | InvalidTimestamp : AAKAError
  | SignatureVerificationFailed : AAKAError
  | ServerResponseVerificationFailed : AAKAError
  | InvalidInput : String → AAKAError
  | HashError : String → AAKAError
  | Other : String → AAKAError
deriving DecidableEq

deriving instance DecidableEq for Except

/-! ## Time oracle (lib.rs / user.rs, is_timestamp_fresh)

`get_current_timestamp` reads the wall clock; the embedding passes the clock
value in explicitly.  The two u64 subtractions of the source are modelled by
checked subtraction, so a subtraction underflow (a u64 panic in Rust) would
surface as `Option.none`. -/

/-- Checked u64 subtraction: `none` models a Rust subtraction underflow panic. -/
def checkedSub (a b : Nat) : Option Nat := if b ≤ a then some (a - b) else none

/-- lib.rs `is_timestamp_fresh`, with the clock value passed in.  The constant
300 is ALLOWED_SKEW_SECONDS. -/
def is_timestamp_fresh (currentTs ts : Nat) : Option Bool :=
  match (if currentTs ≥ ts then checkedSub currentTs ts else checkedSub ts currentTs) with
  | some diff => some (decide (diff ≤ 300))
  | none => none

/-! ## Hash family (hash_utils.rs)

The base hash is passed as the parameter `hf`; the source instantiates it with
SHA3-256 (`sha3_256` above).  `G1`, `G2` and `GT` elements are represented by
their discrete logarithms with respect to the fixed generators, living in an
abstract scalar field `F` (BLS12-381 `Fr` in the source); the canonical
compressed serializations become the abstract parameters `serG1` and `serGT`.
`from_be_bytes_mod_order` becomes the natural-number cast into `F`, which for
`F = ZMod q` is exactly big-endian-reduce-mod-q. -/

/-- Domain separation constant of H0 (`b"IBC_AAKA_H0"`). -/
def h0sep : List Nat := [73, 66, 67, 95, 65, 65, 75, 65, 95, 72, 48]

/-- Domain separation constant of H1. -/
def h1sep : List Nat := [73, 66, 67, 95, 65, 65, 75, 65, 95, 72, 49]

/-- Domain separation constant of H2. -/
def h2sep : List Nat := [73, 66, 67, 95, 65, 65, 75, 65, 95, 72, 50]

/-- Domain separation constant of H3. -/
def h3sep : List Nat := [73, 66, 67, 95, 65, 65, 75, 65, 95, 72, 51]

/-- Domain separation constant of H4. -/
def h4sep : List Nat := [73, 66, 67, 95, 65, 65, 75, 65, 95, 72, 52]

/-- Domain separation constant of H5. -/
def h5sep : List Nat := [73, 66, 67, 95, 65, 65, 75, 65, 95, 72, 53]

section HashFamily

variable {F : Type} [Field F]

/-- hash_utils.rs `h0`: SHA3-256 of tag, user id and compressed R_u, reduced into `Fq`. -/
def h0 (hf : List Nat → List Nat) (serG1 : F → List Nat) (id_u : List Nat) (r_u : F) : F :=
  Nat.cast (beNat (hf (h0sep ++ id_u ++ serG1 r_u)))

/-- hash_utils.rs `h1`. -/
def h1 (hf : List Nat → List Nat) (id_ms : List Nat) : F :=
  Nat.cast (beNat (hf (h1sep ++ id_ms)))

/-- hash_utils.rs `h3`: over the tag, id, compressed points and the
big-endian 8-byte timestamp. -/
def h3 (hf : List Nat → List Nat) (serG1 : F → List Nat) (id_u : List Nat) (r_u x_pub : F)
    (timestamp : Nat) : F :=
  Nat.cast (beNat (hf (h3sep ++ id_u ++ serG1 r_u ++ serG1 x_pub ++ be64 timestamp)))

/-- hash_utils.rs `h4`. -/
def h4 (hf : List Nat → List Nat) (serG1 : F → List Nat) (id_u id_ms : List Nat) (x_pub y_pub : F)
    (timestamp : Nat) : F :=
  Nat.cast (beNat (hf (h4sep ++ id_u ++ id_ms ++ serG1 x_pub ++ serG1 y_pub ++ be64 timestamp)))

/-- The iterative extension loop shared verbatim by `h2` and `h5`:

    while result.len() < output_len { result += block(counter); counter += 1;
      if counter > 100 { return Err(HashError(msg)) } }
    result.truncate(output_len)

The structural fuel is `100 - counter`, so the two arguments `(c, fuel)` of a
call always satisfy `c + fuel = 100`; the loop is entered with `(0, 100)`. -/
def kdfLoop (block : Nat → List Nat) (outputLen : Nat) (msg : String) :
    Nat → Nat → List Nat → Except AAKAError (List Nat)
  | _, 0, acc =>
    if acc.length < outputLen then .error (.HashError msg)
    else .ok (acc.take outputLen)
  | c, fuel + 1, acc =>
    if acc.length < outputLen then
      kdfLoop block outputLen msg (c + 1) fuel (acc ++ block c)
    else .ok (acc.take outputLen)

/-- hash_utils.rs `h2`: the masking KDF.  The first block hashes tag and
compressed `g^x` with no counter; each extension block appends the big-endian
u32 counter 0, 1, 2, ... -/
def h2 (hf : List Nat → List Nat) (serGT : F → List Nat) (g_x : F) (output_len : Nat) :
    Except AAKAError (List Nat) :=
  let gx_bytes := serGT g_x
  kdfLoop (fun c => hf (h2sep ++ gx_bytes ++ be32 c)) output_len
    ("H2 output generation loop limit reached") 0 100 (hf (h2sep ++ gx_bytes))

/-- hash_utils.rs `h5`: the session-key KDF, same loop over its fixed inputs. -/
def h5 (hf : List Nat → List Nat) (serG1 : F → List Nat) (k_intermediate_g1 : F)
    (id_u id_ms : List Nat) (x_pub y_pub : F) (key_len_bytes : Nat) :
    Except AAKAError (List Nat) :=
  let base := h5sep ++ serG1 k_intermediate_g1 ++ id_u ++ id_ms ++ serG1 x_pub ++ serG1 y_pub
  kdfLoop (fun c => hf (base ++ be32 c)) key_len_bytes
    ("H5 output generation loop limit reached") 0 100 (hf base)

end HashFamily

/-! ## Key material and messages (lib.rs)

All group elements are stored as their discrete logarithms in `F` (G1 with
respect to the generator `P`, G2 with respect to `P2`, GT with respect to
`e(P1, P2)`); the pairing of two elements multiplies the exponents. -/

structure SystemParameters (F : Type) where
  p : F
  p_pub : F
  p_pub_hat : F
  g : F
deriving DecidableEq

structure MasterSecretKey (F : Type) where
  s : F
  s_hat : F
deriving DecidableEq

structure UserSecretKey (F : Type) where
  r_u : F
  sid_u : F
deriving DecidableEq

structure ServerSecretKey (F : Type) where
  sid_ms : F
deriving DecidableEq

structure UserAuthRequest (F : Type) where
  m : F
  n : List Nat
  sigma : F
  timestamp : Nat
deriving DecidableEq

structure ServerAuthResponse (F : Type) where
  t : F
  y : F
  timestamp : Nat
deriving DecidableEq

structure UserState (F : Type) where
  x : F
  temp_x_pub : F
  user_id : List Nat
  r_u : F
deriving DecidableEq

/-! ## RC algorithms (rc.rs)

Random draws are passed in as explicit arguments; the source checks them for
zero exactly as embedded here. -/

section Protocol

variable {F : Type} [Field F] [DecidableEq F]

/-- rc.rs `setup`.  The G1 generator has discrete log 1 and `g = e(P1, P2)`
has discrete log 1. -/
def setup (s s_hat : F) : Except AAKAError (SystemParameters F × MasterSecretKey F) :=
  if s = 0 ∨ s_hat = 0 then
    .error (.CryptoError ("Master secret key generation resulted in zero"))
  else
    .ok ({ p := 1, p_pub := 1 * s, p_pub_hat := 1 * s_hat, g := 1 },
         { s := s, s_hat := s_hat })

/-- rc.rs `register_user`, with the random draw `r_u_scalar` passed in. -/
def register_user (hf : List Nat → List Nat) (serG1 : F → List Nat)
    (msk : MasterSecretKey F) (id_u : List Nat) (r_u_scalar : F) :
    Except AAKAError (UserSecretKey F) :=
  if r_u_scalar = 0 then
    .error (.CryptoError ("User registration random scalar ru is zero"))
  else
    let r_u_point := 1 * r_u_scalar
    let h_u := h0 hf serG1 id_u r_u_point
    let s_mul_h_u := msk.s * h_u
    .ok { r_u := r_u_point, sid_u := r_u_scalar + s_mul_h_u }

/-- rc.rs `register_server`.  After the explicit zero check the modular inverse
exists, so the `ok_or_else` branch of the source cannot fire. -/
def register_server (hf : List Nat → List Nat) (msk : MasterSecretKey F) (id_ms : List Nat) :
    Except AAKAError (ServerSecretKey F) :=
  let h_ms : F := h1 hf id_ms
  let denominator := msk.s_hat + h_ms
  if denominator = 0 then
    .error (.CryptoError ("Denominator (s_hat + h_ms) is zero during server registration"))
  else
    .ok { sid_ms := 1 * denominator⁻¹ }

/-! ## User protocol half (user.rs) -/

/-- The formatted message of the unreachable H2 length-mismatch branch of
`initiate_authentication`. -/
def h2MismatchUser (a b : Nat) : String :=
  "H2 output length (" ++ toString a ++ ") does not match payload length (" ++ toString b ++ ")"

/-- user.rs `initiate_authentication`, with the random draw `x` and the clock
value `now_u` passed in. -/
def initiate_authentication (hf : List Nat → List Nat) (serG1 serGT : F → List Nat)
    (usk : UserSecretKey F) (user_id server_id : List Nat) (params : SystemParameters F)
    (x : F) (now_u : Nat) : Except AAKAError (UserAuthRequest F × UserState F) :=
  if x = 0 then .error (.CryptoError ("User random scalar x is zero"))
  else
    let temp_x_pub := params.p * x
    let g_x := params.g * x
    let h_ms := h1 hf server_id
    let h_ms_p := params.p * h_ms
    let inner_m := params.p_pub_hat + h_ms_p
    let m := inner_m * x
    let r_u_bytes := serG1 usk.r_u
    let x_pub_bytes := serG1 temp_x_pub
    let n_payload_len := user_id.length + r_u_bytes.length + x_pub_bytes.length
    match h2 hf serGT g_x n_payload_len with
    | .error e => .error e
    | .ok h2_output =>
      let n_payload := user_id ++ r_u_bytes ++ x_pub_bytes
      if h2_output.length ≠ n_payload.length then
        .error (.HashError (h2MismatchUser h2_output.length n_payload.length))
      else
        let n := (h2_output.zip n_payload).map fun q => q.1 ^^^ q.2
        let timestamp_u := now_u
        let h_3 := h3 hf serG1 user_id usk.r_u temp_x_pub timestamp_u
        let sigma := usk.sid_u + x * h_3
        .ok ({ m := m, n := n, sigma := sigma, timestamp := timestamp_u },
             { x := x, temp_x_pub := temp_x_pub, user_id := user_id, r_u := usk.r_u })

/-- user.rs `process_server_response`, with the clock value passed in. -/
def process_server_response (hf : List Nat → List Nat) (serG1 : F → List Nat)
    (usk : UserSecretKey F) (state : UserState F) (response : ServerAuthResponse F)
    (server_id : List Nat) (_params : SystemParameters F) (key_len_bytes : Nat)
    (now_u : Nat) : Except AAKAError (List Nat) :=
  match is_timestamp_fresh now_u response.timestamp with
  | none => .error (.CryptoError ("System time error"))
  | some fresh =>
  if fresh = false then .error .InvalidTimestamp
  else
    let computed_t := h4 hf serG1 state.user_id server_id state.temp_x_pub response.y
      response.timestamp
    if computed_t ≠ response.t then .error .ServerResponseVerificationFailed
    else
      let xt := state.x * response.t
      let sidu_plus_xt := usk.sid_u + xt
      let k_u_ms_point := response.y * sidu_plus_xt
      h5 hf serG1 k_u_ms_point state.user_id server_id state.temp_x_pub response.y key_len_bytes

/-! ## Server protocol half (server.rs) -/

/-- The formatted message of the unreachable H2 length-mismatch branch of
`process_user_request`. -/
def h2MismatchServer (a b : Nat) : String :=
  "H2 output length (" ++ toString a ++ ") does not match N length (" ++ toString b ++ ")"

/-- server.rs `process_user_request`, with the random draw `y` and the clock
values (freshness check, response timestamp) passed in.  The pairing
`e(M, SID_ms)` multiplies the discrete logs. -/
def process_user_request (hf : List Nat → List Nat) (serG1 serGT : F → List Nat)
    (deserG1 : List Nat → Option F) (ssk : ServerSecretKey F) (request : UserAuthRequest F)
    (own_id : List Nat) (params : SystemParameters F) (y : F) (now_s t_ms_now : Nat)
    (key_len_bytes : Nat) : Except AAKAError (ServerAuthResponse F × List Nat) :=
  match is_timestamp_fresh now_s request.timestamp with
  | none => .error (.CryptoError ("System time error"))
  | some fresh =>
  if fresh = false then .error .InvalidTimestamp
  else
    let g_x := request.m * ssk.sid_ms
    let g1_compressed_size := 48
    let n_len := request.n.length
    if n_len ≤ g1_compressed_size * 2 then
      .error (.Deserialization ("N parameter too short to contain Ru and X"))
    else
      let id_len := n_len - 2 * g1_compressed_size
      let ru_offset := id_len
      let x_offset := id_len + g1_compressed_size
      match h2 hf serGT g_x n_len with
      | .error e => .error e
      | .ok h2_output =>
      if h2_output.length ≠ request.n.length then
        .error (.HashError (h2MismatchServer h2_output.length request.n.length))
      else
        let n_payload := (h2_output.zip request.n).map fun q => q.1 ^^^ q.2
        let id_u_prime := n_payload.take id_len
        let r_u_prime_bytes := (n_payload.drop ru_offset).take g1_compressed_size
        let x_prime_bytes := n_payload.drop x_offset
        match deserG1 r_u_prime_bytes with
        | none => .error (.Deserialization ("Failed to deserialize Ru"))
        | some r_u_prime =>
        match deserG1 x_prime_bytes with
        | none => .error (.Deserialization ("Failed to deserialize X"))
        | some x_prime =>
          let h_0 := h0 hf serG1 id_u_prime r_u_prime
          let h0_ppub := params.p_pub * h_0
          let w := r_u_prime + h0_ppub
          let h_3 := h3 hf serG1 id_u_prime r_u_prime x_prime request.timestamp
          let h3_x_prime := x_prime * h_3
          let rhs := w + h3_x_prime
          let sigma_p := params.p * request.sigma
          if sigma_p ≠ rhs then .error .SignatureVerificationFailed
          else if y = 0 then .error (.CryptoError ("Server random scalar y is zero"))
          else
            let y_pub := params.p * y
            let timestamp_ms := t_ms_now
            let t := h4 hf serG1 id_u_prime own_id x_prime y_pub timestamp_ms
            let tx_prime := x_prime * t
            let inner_k := tx_prime + w
            let k_ms_u_point := inner_k * y
            match h5 hf serG1 k_ms_u_point id_u_prime own_id x_prime y_pub key_len_bytes with
            | .error e => .error e
            | .ok session_key_bytes =>
              .ok ({ t := t, y := y_pub, timestamp := timestamp_ms }, session_key_bytes)

end Protocol

/-! ## KDF loop characterization -/

/-- The concatenation of `fuel` successive extension blocks starting at counter `c`. -/
def blockList (block : Nat → List Nat) : Nat → Nat → List Nat
  | _, 0 => []
  | c, fuel + 1 => block c ++ blockList block (c + 1) fuel

section KdfFacts

variable {F : Type} [Field F]

/-- The full (maximal) H2 stream: the counterless initial block followed by the
100 extension blocks with counters 0..99. -/
def h2stream (hf : List Nat → List Nat) (serGT : F → List Nat) (g_x : F) : List Nat :=
  hf (h2sep ++ serGT g_x) ++ blockList (fun c => hf (h2sep ++ serGT g_x ++ be32 c)) 0 100

/-- The full (maximal) H5 stream over its fixed inputs. -/
def h5stream (hf : List Nat → List Nat) (serG1 : F → List Nat) (k_intermediate_g1 : F)
    (id_u id_ms : List Nat) (x_pub y_pub : F) : List Nat :=
  let base := h5sep ++ serG1 k_intermediate_g1 ++ id_u ++ id_ms ++ serG1 x_pub ++ serG1 y_pub
  hf base ++ blockList (fun c => hf (base ++ be32 c)) 0 100

end KdfFacts

/-! ## Threshold share layer (temp/lib.rs, MasterSecretKey::into_shares / from_shares)

Scalar-field elements are tracked by their integer VALUES below (a `Fr` value
is a natural number < `frQ`).  ark-ff stores an `Fr` internally in Montgomery
form: the limbs `self.s.0.0` hold `value * R mod q` with `R = 2^256 mod q`.
`into_shares` bytemuck-casts those limbs (little-endian on the supported
platforms), while `from_shares` rebuilds the elements with
`ScalarField::from(BigInt)`, which is `from_bigint(..).unwrap()` and
interprets the limbs as the integer VALUE.  The third-party GF(256) sharing
crate (blahaj) is abstracted by `dealer`/`recover` arguments; note that the
source passes the share COUNT `n` as the `Sharks` threshold in both
directions. -/

/-- The BLS12-381 scalar-field modulus (the order of `Fr`). -/
def frQ : Nat := 52435875175126190479447740508185965837690552500527637822603658699938581184513

/-- The ark-ff Montgomery factor for `Fr`: `R = 2^256 mod q`. -/
def frR : Nat := 2 ^ 256 % frQ

/-- The 64-byte blob `bytemuck::cast([self.s.0.0, self.s_hat.0.0])`: the
little-endian limbs of the two Montgomery representations. -/
def mskToBytes (s s_hat : Nat) : List Nat :=
  leBytesN 32 (s * frR % frQ) ++ leBytesN 32 (s_hat * frR % frQ)

/-- The conversion `Fp::from_bigint`: succeeds exactly on canonical (below-modulus) input,
interpreting it as the integer value; the source calls `.unwrap()` on it. -/
def from_bigint (m : Nat) : Option Nat := if m < frQ then some m else none

section Shamir

variable {Share : Type}

/-- temp/lib.rs `MasterSecretKey::into_shares`:
`Sharks(n as u8).dealer(&msk_bytes).take(n)`. -/
def into_shares (dealer : Nat → List Nat → List Share) (s s_hat n : Nat) : List Share :=
  dealer n (mskToBytes s s_hat)

/-- temp/lib.rs `MasterSecretKey::from_shares`: recover with threshold `n`,
check the 64-byte size, then rebuild the two scalars via `from_bigint`
(whose failure is an `unwrap` panic in the source, modelled as an
`.Other` error that the round-trip theorems show unreachable). -/
def from_shares (recover : Nat → List Share → Except String (List Nat))
    (shares : List Share) (n : Nat) : Except AAKAError (Nat × Nat) :=
  match recover n shares with
  | .error e => .error (.Other e)
  | .ok bytes =>
    if bytes.length = 64 then
      match from_bigint (leNat (bytes.take 32)), from_bigint (leNat (bytes.drop 32)) with
      | some s, some s_hat => .ok (s, s_hat)
      | _, _ => .error (.Other ("panic: from_bigint unwrap"))
    else .error (.Other ("MasterSecretKey should be [u8; 64]"))

end Shamir

/-! ## The H2 construction exactly as the specification words it (for C3)

The spec and claim C3 describe BOTH KDF blocks as carrying a counter:
SHA3-256(tag ‖ compress(g^x) ‖ be32(counter)) for counter = 0, 1, 2, ...,
concatenated and truncated to the requested length, with the 100-iteration
hard ceiling.  This definition follows those words, to be compared against
the source-derived `h2`. -/
def h2SpecClaim {F : Type} (serGT : F → List Nat) (g_x : F) (output_len : Nat) :
    Except AAKAError (List Nat) :=
  let gx_bytes := serGT g_x
  let numBlocks := (output_len + 31) / 32
  if numBlocks > 100 then .error (.HashError ("H2 output generation loop limit reached"))
  else .ok (List.take output_len
    (((List.range numBlocks).map fun c => sha3_256 (h2sep ++ gx_bytes ++ be32 c)).join))

/-- The length of the payload of a successful result. -/
def okLength {α : Type} (e : Except AAKAError (List α)) : Option Nat :=
  match e with
  | .ok l => some l.length
  | .error _ => none

/-- Tests whether a result carries the `InvalidInput` error kind. -/
def isInvalidInputErr {α : Type} : Except AAKAError α → Bool
  | .error (.InvalidInput _) => true
  | _ => false

/-! ## Concrete instantiation used by the witnesses

A two-element scalar field (`ZMod 2`), a constant-zero 32-byte base hash, and
simple injective 48-byte serializations: enough to run every protocol
operation end to end by evaluation. -/

/-- A base-hash stand-in with the single property the theorems need: every
output is 32 bytes. -/
def hfZero : List Nat → List Nat := fun _ => List.replicate 32 0

/-- A 48-byte injective serialization of the two-element field. -/
def serG1Z : ZMod 2 → List Nat := fun a => a.val :: List.replicate 47 0

/-- Partial inverse of `serG1Z`. -/
def deserG1Z : List Nat → Option (ZMod 2) := fun l =>
  match l with
  | b :: rest => if rest = List.replicate 47 0 ∧ b < 2 then some (b : ZMod 2) else none
  | [] => none

/-- A GT serialization for the witnesses. -/
def serGTZ : ZMod 2 → List Nat := fun a => [a.val]

def wParams : SystemParameters (ZMod 2) := { p := 1, p_pub := 1, p_pub_hat := 1, g := 1 }

def wMsk : MasterSecretKey (ZMod 2) := { s := 1, s_hat := 1 }

def wUsk : UserSecretKey (ZMod 2) := { r_u := 1, sid_u := 1 }

def wSsk : ServerSecretKey (ZMod 2) := { sid_ms := 1 }

/-- The masked payload of the witness run: `hfZero` masks with zero bytes, so
`N` is the payload `id_u ‖ compress(R_u) ‖ compress(X)` itself. -/
def wN : List Nat := [7] ++ (1 :: List.replicate 47 0) ++ (1 :: List.replicate 47 0)

def wReq : UserAuthRequest (ZMod 2) := { m := 1, n := wN, sigma := 1, timestamp := 1000 }

def wSt : UserState (ZMod 2) := { x := 1, temp_x_pub := 1, user_id := [7], r_u := 1 }

def wResp : ServerAuthResponse (ZMod 2) := { t := 0, y := 1, timestamp := 1001 }

def wKey : List Nat := List.replicate 32 0

/-- A short-N request for the C6 counterexample. -/
def w6req : UserAuthRequest (ZMod 2) := { m := 1, n := [], sigma := 1, timestamp := 1000 }

/-- Witness instantiation of the abstract Shamir dealer: every node receives
the full secret. -/
def w2dealer : Nat → List Nat → List (List Nat) := fun n secret => List.replicate n secret

/-- Witness instantiation of the abstract Shamir recover. -/
def w2recover : Nat → List (List Nat) → Except String (List Nat) := fun _ shs =>
  match shs with
  | sh :: _ => .ok sh
  | [] => .error ("No shares")

/-- SHA3-256 always produces exactly 32 bytes. -/
theorem sha3_256_length (msg : List Nat) : (sha3_256 msg).length = 32 := by
  simp [sha3_256, squeeze32, lane8LE]

/-- Sanity check: SHA3-256 of the empty string matches the published test vector. -/
theorem sha3_256_empty :
    sha3_256 [] =
    [167, 255, 198, 248, 191, 30, 215, 102, 81, 193, 71, 86, 160, 97, 214, 98,
     245, 128, 255, 77, 228, 59, 73, 250, 130, 216, 10, 75, 128, 248, 67, 74] := by
  decide


/-! ## List helper lemmas -/

theorem take_append_of_le_len {α : Type} {n : Nat} {l₁ l₂ : List α} (h : n ≤ l₁.length) :
    (l₁ ++ l₂).take n = l₁.take n := by
  induction l₁ generalizing n with
  | nil =>
    have : n = 0 := by simpa using h
    simp [this]
  | cons a l ih =>
    cases n with
    | zero => simp
    | succ n =>
      simp only [List.cons_append, List.take_succ_cons]
      rw [ih (by simpa using h)]

theorem take_take_of_le {α : Type} {m n : Nat} (h : m ≤ n) (l : List α) :
    (l.take n).take m = l.take m := by
  induction l generalizing m n with
  | nil => simp
  | cons a l ih =>
    cases m with
    | zero => simp
    | succ m =>
      cases n with
      | zero => omega
      | succ n => simp only [List.take_succ_cons]; rw [ih (by omega)]

/-- XOR unmasking: applying the mask `a` to the masked string recovers the payload. -/
theorem xor_unmask : ∀ (a b : List Nat), a.length = b.length →
    ((a.zip ((a.zip b).map fun q => q.1 ^^^ q.2)).map fun q => q.1 ^^^ q.2) = b := by
  intro a
  induction a with
  | nil => intro b h; cases b with
    | nil => rfl
    | cons y ys => simp at h
  | cons x xs ih =>
    intro b h
    cases b with
    | nil => simp at h
    | cons y ys =>
      simp only [List.zip_cons_cons, List.map_cons, List.cons.injEq]
      constructor
      · rw [← Nat.xor_assoc, Nat.xor_self, Nat.zero_xor]
      · exact ih ys (by simpa using h)


/-! ## KDF loop characterization lemmas -/

/-- The function `blockList` is the joined range-map of the block function: the counters run
`c, c+1, ..., c+fuel-1`. -/
theorem blockList_eq_range (block : Nat → List Nat) :
    ∀ (fuel c : Nat), blockList block c fuel = ((List.range fuel).map fun i => block (c + i)).join := by
  intro fuel
  induction fuel with
  | zero => intro c; simp [blockList]
  | succ fuel ih =>
    intro c
    rw [blockList, ih (c + 1), List.range_succ_eq_map]
    simp only [List.map_cons, List.map_map, List.join_cons, Nat.add_zero]
    congr 2
    apply List.map_congr_left
    intro i _
    simp only [Function.comp_apply]
    congr 1
    omega

theorem blockList_length {block : Nat → List Nat} (hb : ∀ i, (block i).length = 32) :
    ∀ (fuel c : Nat), (blockList block c fuel).length = 32 * fuel := by
  intro fuel
  induction fuel with
  | zero => intro c; simp [blockList]
  | succ fuel ih =>
    intro c
    simp only [blockList, List.length_append, hb c, ih (c + 1)]
    ring

/-- A successful KDF loop returns the truncation of the accumulated stream. -/
theorem kdfLoop_ok_value {block : Nat → List Nat} {L : Nat} {msg : String} :
    ∀ (fuel c : Nat) (acc out : List Nat),
      kdfLoop block L msg c fuel acc = .ok out →
      out = (acc ++ blockList block c fuel).take L := by
  intro fuel
  induction fuel with
  | zero =>
    intro c acc out h
    rw [kdfLoop] at h
    split at h
    · cases h
    · cases h; simp [blockList]
  | succ fuel ih =>
    intro c acc out h
    rw [kdfLoop] at h
    split at h
    · rw [ih (c + 1) (acc ++ block c) out h, blockList, List.append_assoc]
    · cases h
      rename_i hge
      rw [take_append_of_le_len (by omega)]

/-- The KDF loop succeeds exactly when the requested length fits in the
accumulator plus the remaining 32-byte blocks. -/
theorem kdfLoop_ok_iff {block : Nat → List Nat} {L : Nat} {msg : String}
    (hb : ∀ i, (block i).length = 32) :
    ∀ (fuel c : Nat) (acc : List Nat),
      (∃ out, kdfLoop block L msg c fuel acc = .ok out) ↔ L ≤ acc.length + 32 * fuel := by
  intro fuel
  induction fuel with
  | zero =>
    intro c acc
    rw [kdfLoop]
    split
    · constructor
      · rintro ⟨out, hout⟩; cases hout
      · intro hle; omega
    · exact ⟨fun _ => by omega, fun _ => ⟨acc.take L, rfl⟩⟩
  | succ fuel ih =>
    intro c acc
    rw [kdfLoop]
    split
    · rw [ih (c + 1) (acc ++ block c)]
      simp only [List.length_append, hb c]
      omega
    · exact ⟨fun _ => by omega, fun _ => ⟨acc.take L, rfl⟩⟩

/-- The KDF loop either succeeds or fails with exactly the HashError message. -/
theorem kdfLoop_err {block : Nat → List Nat} {L : Nat} {msg : String} :
    ∀ (fuel c : Nat) (acc : List Nat),
      (∃ out, kdfLoop block L msg c fuel acc = .ok out) ∨
      kdfLoop block L msg c fuel acc = .error (.HashError msg) := by
  intro fuel
  induction fuel with
  | zero =>
    intro c acc
    rw [kdfLoop]
    split
    · exact Or.inr rfl
    · exact Or.inl ⟨acc.take L, rfl⟩
  | succ fuel ih =>
    intro c acc
    rw [kdfLoop]
    split
    · exact ih (c + 1) (acc ++ block c)
    · exact Or.inl ⟨acc.take L, rfl⟩

section KdfFacts

variable {F : Type} [Field F]

/-- A successful `h2` output is the truncated H2 stream. -/
theorem h2_ok_value {hf : List Nat → List Nat} {serGT : F → List Nat} {g_x : F} {L : Nat}
    {out : List Nat} (h : h2 hf serGT g_x L = .ok out) :
    out = (h2stream hf serGT g_x).take L :=
  kdfLoop_ok_value 100 0 _ out h

/-- The KDF `h2` succeeds exactly on requested lengths up to 3232 bytes. -/
theorem h2_ok_iff {hf : List Nat → List Nat} (hb : ∀ m, (hf m).length = 32)
    {serGT : F → List Nat} {g_x : F} {L : Nat} :
    (∃ out, h2 hf serGT g_x L = .ok out) ↔ L ≤ 3232 := by
  rw [h2, kdfLoop_ok_iff (fun i => hb _)]
  rw [hb]

/-- A successful `h2` output has exactly the requested length. -/
theorem h2_ok_length {hf : List Nat → List Nat} (hb : ∀ m, (hf m).length = 32)
    {serGT : F → List Nat} {g_x : F} {L : Nat} {out : List Nat}
    (h : h2 hf serGT g_x L = .ok out) : out.length = L := by
  have hle : L ≤ 3232 := (h2_ok_iff hb).mp ⟨out, h⟩
  rw [h2_ok_value h, List.length_take, h2stream, List.length_append, hb,
    blockList_length (fun i => hb _)]
  omega

/-- The KDF `h2` fails (necessarily with the loop-limit HashError) exactly on requested
lengths above 3232 bytes. -/
theorem h2_err_iff {hf : List Nat → List Nat} (hb : ∀ m, (hf m).length = 32)
    {serGT : F → List Nat} {g_x : F} {L : Nat} :
    h2 hf serGT g_x L = .error (.HashError ("H2 output generation loop limit reached")) ↔
      3232 < L := by
  constructor
  · intro herr
    by_contra hle
    obtain ⟨out, hout⟩ := (@h2_ok_iff F _ hf hb serGT g_x L).mpr (by omega)
    rw [herr] at hout
    cases hout
  · intro hgt
    rcases @kdfLoop_err (fun c => hf (h2sep ++ serGT g_x ++ be32 c)) L
      ("H2 output generation loop limit reached") 100 0
      (hf (h2sep ++ serGT g_x)) with hok | herr
    · have := (@h2_ok_iff F _ hf hb serGT g_x L).mp hok
      omega
    · exact herr

/-- A successful `h5` output is the truncated H5 stream. -/
theorem h5_ok_value {hf : List Nat → List Nat} {serG1 : F → List Nat} {k_g1 : F}
    {id_u id_ms : List Nat} {x_pub y_pub : F} {L : Nat} {out : List Nat}
    (h : h5 hf serG1 k_g1 id_u id_ms x_pub y_pub L = .ok out) :
    out = (h5stream hf serG1 k_g1 id_u id_ms x_pub y_pub).take L :=
  kdfLoop_ok_value 100 0 _ out h

/-- The KDF `h5` succeeds exactly on requested lengths up to 3232 bytes. -/
theorem h5_ok_iff {hf : List Nat → List Nat} (hb : ∀ m, (hf m).length = 32)
    {serG1 : F → List Nat} {k_g1 : F} {id_u id_ms : List Nat} {x_pub y_pub : F} {L : Nat} :
    (∃ out, h5 hf serG1 k_g1 id_u id_ms x_pub y_pub L = .ok out) ↔ L ≤ 3232 := by
  rw [h5, kdfLoop_ok_iff (fun i => hb _)]
  rw [hb]

/-- A successful `h5` output has exactly the requested length. -/
theorem h5_ok_length {hf : List Nat → List Nat} (hb : ∀ m, (hf m).length = 32)
    {serG1 : F → List Nat} {k_g1 : F} {id_u id_ms : List Nat} {x_pub y_pub : F} {L : Nat}
    {out : List Nat} (h : h5 hf serG1 k_g1 id_u id_ms x_pub y_pub L = .ok out) :
    out.length = L := by
  have hle : L ≤ 3232 := (h5_ok_iff hb).mp ⟨out, h⟩
  rw [h5_ok_value h, List.length_take, h5stream, List.length_append, hb,
    blockList_length (fun i => hb _)]
  omega

end KdfFacts

/-! ## Inversion lemmas for the protocol steps -/

section Inversion

variable {F : Type} [Field F] [DecidableEq F]

theorem setup_ok_inv {s s_hat : F} {prms : SystemParameters F} {msk : MasterSecretKey F}
    (h : setup s s_hat = .ok (prms, msk)) :
    s ≠ 0 ∧ s_hat ≠ 0 ∧
      prms = { p := 1, p_pub := 1 * s, p_pub_hat := 1 * s_hat, g := 1 } ∧
      msk = { s := s, s_hat := s_hat } := by
  rw [setup] at h
  split at h
  · cases h
  · rename_i hcond
    push_neg at hcond
    rw [Except.ok.injEq, Prod.mk.injEq] at h
    exact ⟨hcond.1, hcond.2, h.1.symm, h.2.symm⟩

theorem register_user_ok_inv {hf : List Nat → List Nat} {serG1 : F → List Nat}
    {msk : MasterSecretKey F} {id_u : List Nat} {r_u_scalar : F} {usk : UserSecretKey F}
    (h : register_user hf serG1 msk id_u r_u_scalar = .ok usk) :
    r_u_scalar ≠ 0 ∧
      usk = { r_u := 1 * r_u_scalar,
              sid_u := r_u_scalar + msk.s * h0 hf serG1 id_u (1 * r_u_scalar) } := by
  simp only [register_user] at h
  split at h
  · cases h
  · rename_i hr
    rw [Except.ok.injEq] at h
    exact ⟨hr, h.symm⟩

theorem register_server_ok_inv {hf : List Nat → List Nat} {msk : MasterSecretKey F}
    {id_ms : List Nat} {ssk : ServerSecretKey F}
    (h : register_server hf msk id_ms = .ok ssk) :
    msk.s_hat + h1 hf id_ms ≠ 0 ∧
      ssk = { sid_ms := 1 * (msk.s_hat + h1 hf id_ms)⁻¹ } := by
  simp only [register_server] at h
  split at h
  · cases h
  · rename_i hd
    rw [Except.ok.injEq] at h
    exact ⟨hd, h.symm⟩

theorem initiate_ok_inv {hf : List Nat → List Nat} {serG1 serGT : F → List Nat}
    {usk : UserSecretKey F} {user_id server_id : List Nat} {params : SystemParameters F}
    {x : F} {now_u : Nat} {req : UserAuthRequest F} {st : UserState F}
    (h : initiate_authentication hf serG1 serGT usk user_id server_id params x now_u =
      .ok (req, st)) :
    x ≠ 0 ∧ ∃ mask,
      h2 hf serGT (params.g * x)
        (user_id.length + (serG1 usk.r_u).length + (serG1 (params.p * x)).length) = .ok mask ∧
      mask.length = (user_id ++ serG1 usk.r_u ++ serG1 (params.p * x)).length ∧
      req = { m := (params.p_pub_hat + params.p * h1 hf server_id) * x,
              n := (mask.zip (user_id ++ serG1 usk.r_u ++ serG1 (params.p * x))).map
                fun q => q.1 ^^^ q.2,
              sigma := usk.sid_u + x * h3 hf serG1 user_id usk.r_u (params.p * x) now_u,
              timestamp := now_u } ∧
      st = { x := x, temp_x_pub := params.p * x, user_id := user_id, r_u := usk.r_u } := by
  simp only [initiate_authentication] at h
  split at h
  · cases h
  · rename_i hx
    split at h
    · cases h
    · rename_i mask hmask
      split at h
      · cases h
      · rename_i hlen
        rw [Except.ok.injEq, Prod.mk.injEq] at h
        exact ⟨hx, mask, hmask, not_ne_iff.mp hlen, h.1.symm, h.2.symm⟩

/-- Full inversion of a successful `process_user_request`: every guard on the
way passed and the response and key have the computed shapes. -/
theorem process_user_request_ok_inv {hf : List Nat → List Nat} {serG1 serGT : F → List Nat}
    {deserG1 : List Nat → Option F} {ssk : ServerSecretKey F} {req : UserAuthRequest F}
    {own_id : List Nat} {prms : SystemParameters F} {y : F} {now_s t_ms k : Nat}
    {resp : ServerAuthResponse F} {sk : List Nat}
    (h : process_user_request hf serG1 serGT deserG1 ssk req own_id prms y now_s t_ms k =
      .ok (resp, sk)) :
    is_timestamp_fresh now_s req.timestamp = some true ∧
    96 < req.n.length ∧
    ∃ out, h2 hf serGT (req.m * ssk.sid_ms) req.n.length = .ok out ∧
      out.length = req.n.length ∧
      ∃ rU xP,
        deserG1 ((((out.zip req.n).map fun q => q.1 ^^^ q.2).drop (req.n.length - 2 * 48)).take 48)
          = some rU ∧
        deserG1 (((out.zip req.n).map fun q => q.1 ^^^ q.2).drop (req.n.length - 2 * 48 + 48))
          = some xP ∧
        prms.p * req.sigma =
          (rU + prms.p_pub *
            h0 hf serG1 (((out.zip req.n).map fun q => q.1 ^^^ q.2).take (req.n.length - 2 * 48)) rU) +
          xP * h3 hf serG1 (((out.zip req.n).map fun q => q.1 ^^^ q.2).take (req.n.length - 2 * 48))
            rU xP req.timestamp ∧
        y ≠ 0 ∧
        h5 hf serG1
          ((xP * h4 hf serG1 (((out.zip req.n).map fun q => q.1 ^^^ q.2).take (req.n.length - 2 * 48))
              own_id xP (prms.p * y) t_ms +
            (rU + prms.p_pub *
              h0 hf serG1 (((out.zip req.n).map fun q => q.1 ^^^ q.2).take (req.n.length - 2 * 48)) rU)) * y)
          (((out.zip req.n).map fun q => q.1 ^^^ q.2).take (req.n.length - 2 * 48))
          own_id xP (prms.p * y) k = .ok sk ∧
        resp = { t := h4 hf serG1
                   (((out.zip req.n).map fun q => q.1 ^^^ q.2).take (req.n.length - 2 * 48))
                   own_id xP (prms.p * y) t_ms,
                 y := prms.p * y, timestamp := t_ms } := by
  simp only [process_user_request] at h
  split at h
  · cases h
  · rename_i fresh hfresh
    split at h
    · cases h
    · rename_i hfr
      split at h
      · cases h
      · rename_i hlen
        split at h
        · cases h
        · rename_i out hout
          split at h
          · cases h
          · rename_i houtlen
            split at h
            · cases h
            · rename_i rU hrU
              split at h
              · cases h
              · rename_i xP hxP
                split at h
                · cases h
                · rename_i hsig
                  split at h
                  · cases h
                  · rename_i hy
                    split at h
                    · cases h
                    · rename_i sk5 hsk5
                      rw [Except.ok.injEq, Prod.mk.injEq] at h
                      have hft : fresh = true := by
                        cases fresh
                        · exact absurd rfl hfr
                        · rfl
                      refine ⟨by rw [hfresh, hft], by omega, out, hout, not_ne_iff.mp houtlen,
                        rU, xP, hrU, hxP, not_ne_iff.mp hsig, hy, ?_, h.1.symm⟩
                      rw [← h.2]
                      exact hsk5

/-- Full inversion of a successful `process_server_response`. -/
theorem process_server_response_ok_inv {hf : List Nat → List Nat} {serG1 : F → List Nat}
    {usk : UserSecretKey F} {st : UserState F} {resp : ServerAuthResponse F}
    {server_id : List Nat} {prms : SystemParameters F} {k now_u : Nat} {sk : List Nat}
    (h : process_server_response hf serG1 usk st resp server_id prms k now_u = .ok sk) :
    is_timestamp_fresh now_u resp.timestamp = some true ∧
    h4 hf serG1 st.user_id server_id st.temp_x_pub resp.y resp.timestamp = resp.t ∧
    h5 hf serG1 (resp.y * (usk.sid_u + st.x * resp.t)) st.user_id server_id st.temp_x_pub
      resp.y k = .ok sk := by
  simp only [process_server_response] at h
  split at h
  · cases h
  · rename_i fresh hfresh
    split at h
    · cases h
    · rename_i hfr
      split at h
      · cases h
      · rename_i ht
        have hft : fresh = true := by
          cases fresh
          · exact absurd rfl hfr
          · rfl
        exact ⟨by rw [hfresh, hft], not_ne_iff.mp ht, h⟩

/-- Forward evaluation of `process_user_request` once the timestamp, length,
mask and deserialization steps are known to go through: the result is decided
by the signature equation, then the zero check on `y`, then the H5 call. -/
theorem process_user_request_run {hf : List Nat → List Nat} {serG1 serGT : F → List Nat}
    {deserG1 : List Nat → Option F} {ssk : ServerSecretKey F} {req : UserAuthRequest F}
    {own_id : List Nat} {prms : SystemParameters F} {y : F} {now_s t_ms k : Nat}
    (hfresh : is_timestamp_fresh now_s req.timestamp = some true)
    (hlen : ¬ req.n.length ≤ 48 * 2)
    {out : List Nat}
    (hout : h2 hf serGT (req.m * ssk.sid_ms) req.n.length = .ok out)
    (houtlen : out.length = req.n.length)
    {rU xP : F}
    (hrU : deserG1 ((((out.zip req.n).map fun q => q.1 ^^^ q.2).drop (req.n.length - 2 * 48)).take 48)
      = some rU)
    (hxP : deserG1 (((out.zip req.n).map fun q => q.1 ^^^ q.2).drop (req.n.length - 2 * 48 + 48))
      = some xP) :
    process_user_request hf serG1 serGT deserG1 ssk req own_id prms y now_s t_ms k =
      if prms.p * req.sigma ≠
          (rU + prms.p_pub *
            h0 hf serG1 (((out.zip req.n).map fun q => q.1 ^^^ q.2).take (req.n.length - 2 * 48)) rU) +
          xP * h3 hf serG1 (((out.zip req.n).map fun q => q.1 ^^^ q.2).take (req.n.length - 2 * 48))
            rU xP req.timestamp then
        .error .SignatureVerificationFailed
      else if y = 0 then .error (.CryptoError ("Server random scalar y is zero"))
      else
        (h5 hf serG1
          ((xP * h4 hf serG1 (((out.zip req.n).map fun q => q.1 ^^^ q.2).take (req.n.length - 2 * 48))
              own_id xP (prms.p * y) t_ms +
            (rU + prms.p_pub *
              h0 hf serG1 (((out.zip req.n).map fun q => q.1 ^^^ q.2).take (req.n.length - 2 * 48)) rU)) * y)
          (((out.zip req.n).map fun q => q.1 ^^^ q.2).take (req.n.length - 2 * 48))
          own_id xP (prms.p * y) k).map
          fun sk => ({ t := h4 hf serG1
                         (((out.zip req.n).map fun q => q.1 ^^^ q.2).take (req.n.length - 2 * 48))
                         own_id xP (prms.p * y) t_ms,
                       y := prms.p * y, timestamp := t_ms }, sk) := by
  simp only [process_user_request]
  split
  · rename_i heq
    rw [hfresh] at heq
    cases heq
  · rename_i fresh heq
    rw [hfresh, Option.some.injEq] at heq
    subst heq
    rw [if_neg (by decide : ¬ (true = false))]
    rw [if_neg hlen]
    split
    · rename_i e heq
      rw [hout] at heq
      cases heq
    · rename_i h2out heq
      rw [hout, Except.ok.injEq] at heq
      subst heq
      rw [if_neg (not_ne_iff.mpr houtlen)]
      split
      · rename_i heq
        rw [hrU] at heq
        cases heq
      · rename_i rU' heq
        rw [hrU, Option.some.injEq] at heq
        subst heq
        split
        · rename_i heq
          rw [hxP] at heq
          cases heq
        · rename_i xP' heq
          rw [hxP, Option.some.injEq] at heq
          subst heq
          split
          · rfl
          · split
            · rfl
            · cases hE : h5 hf serG1
                ((xP * h4 hf serG1 (((out.zip req.n).map fun q => q.1 ^^^ q.2).take (req.n.length - 2 * 48))
                    own_id xP (prms.p * y) t_ms +
                  (rU + prms.p_pub *
                    h0 hf serG1 (((out.zip req.n).map fun q => q.1 ^^^ q.2).take (req.n.length - 2 * 48)) rU)) * y)
                (((out.zip req.n).map fun q => q.1 ^^^ q.2).take (req.n.length - 2 * 48))
                own_id xP (prms.p * y) k with
              | error e => rfl
              | ok sk => rfl

end Inversion

/-! ## Helper lemmas about the time oracle -/

/-- The freshness check never takes the underflow branch and returns the
300-second window test on the absolute clock difference. -/
theorem fresh_total (currentTs ts : Nat) :
    is_timestamp_fresh currentTs ts = some (decide (Nat.dist currentTs ts ≤ 300)) := by
  rw [is_timestamp_fresh]
  by_cases hge : currentTs ≥ ts
  · rw [if_pos hge, checkedSub, if_pos hge]
    have : Nat.dist currentTs ts = currentTs - ts := by
      simp [Nat.dist]
      omega
    rw [this]
  · rw [if_neg hge, checkedSub, if_pos (by omega)]
    have : Nat.dist currentTs ts = ts - currentTs := by
      simp [Nat.dist]
      omega
    rw [this]

theorem leBytesN_length : ∀ (k v : Nat), (leBytesN k v).length = k := by
  intro k
  induction k with
  | zero => intro v; rfl
  | succ k ih => intro v; simp [leBytesN, ih]

theorem leNat_leBytesN : ∀ (k v : Nat), v < 256 ^ k → leNat (leBytesN k v) = v := by
  intro k
  induction k with
  | zero =>
    intro v hv
    interval_cases v
    rfl
  | succ k ih =>
    intro v hv
    have hdiv : v / 256 < 256 ^ k := by
      rw [Nat.div_lt_iff_lt_mul (by omega)]
      calc v < 256 ^ (k + 1) := hv
        _ = 256 ^ k * 256 := by ring
    rw [leBytesN, leNat, List.foldr_cons]
    have : (leBytesN k (v / 256)).foldr (fun b acc => acc * 256 + b) 0 = v / 256 :=
      ih (v / 256) hdiv
    rw [this]
    omega

/-- The KDF `h5` fails (necessarily with the loop-limit HashError) exactly on requested
lengths above 3232 bytes. -/
theorem h5_err_iff {F : Type} [Field F] {hf : List Nat → List Nat}
    (hb : ∀ m, (hf m).length = 32) {serG1 : F → List Nat} {k_g1 : F}
    {id_u id_ms : List Nat} {x_pub y_pub : F} {L : Nat} :
    h5 hf serG1 k_g1 id_u id_ms x_pub y_pub L =
      .error (.HashError ("H5 output generation loop limit reached")) ↔ 3232 < L := by
  constructor
  · intro herr
    by_contra hle
    obtain ⟨out, hout⟩ := (@h5_ok_iff F _ hf hb serG1 k_g1 id_u id_ms x_pub y_pub L).mpr (by omega)
    rw [herr] at hout
    cases hout
  · intro hgt
    rcases @kdfLoop_err
      (fun c => hf (h5sep ++ serG1 k_g1 ++ id_u ++ id_ms ++ serG1 x_pub ++ serG1 y_pub ++ be32 c)) L
      ("H5 output generation loop limit reached") 100 0
      (hf (h5sep ++ serG1 k_g1 ++ id_u ++ id_ms ++ serG1 x_pub ++ serG1 y_pub)) with hok | herr
    · have := (@h5_ok_iff F _ hf hb serG1 k_g1 id_u id_ms x_pub y_pub L).mp hok
      omega
    · exact herr

/-- Any `h2` error is the loop-limit HashError. -/
theorem h2_error_msg {F : Type} [Field F] {hf : List Nat → List Nat} {serGT : F → List Nat}
    {g_x : F} {L : Nat} {e : AAKAError} (h : h2 hf serGT g_x L = .error e) :
    e = .HashError ("H2 output generation loop limit reached") := by
  have hb : h2 hf serGT g_x L =
      kdfLoop (fun c => hf (h2sep ++ serGT g_x ++ be32 c)) L
        ("H2 output generation loop limit reached") 0 100 (hf (h2sep ++ serGT g_x)) := rfl
  rw [hb] at h
  rcases @kdfLoop_err (fun c => hf (h2sep ++ serGT g_x ++ be32 c)) L
    ("H2 output generation loop limit reached") 100 0 (hf (h2sep ++ serGT g_x)) with ⟨o, ho⟩ | herr
  · rw [ho] at h
    cases h
  · rw [herr, Except.error.injEq] at h
    exact h.symm

/-- Any `h5` error is the loop-limit HashError. -/
theorem h5_error_msg {F : Type} [Field F] {hf : List Nat → List Nat} {serG1 : F → List Nat}
    {k_g1 : F} {id_u id_ms : List Nat} {x_pub y_pub : F} {L : Nat} {e : AAKAError}
    (h : h5 hf serG1 k_g1 id_u id_ms x_pub y_pub L = .error e) :
    e = .HashError ("H5 output generation loop limit reached") := by
  have hb : h5 hf serG1 k_g1 id_u id_ms x_pub y_pub L =
      kdfLoop (fun c => hf (h5sep ++ serG1 k_g1 ++ id_u ++ id_ms ++ serG1 x_pub ++ serG1 y_pub ++ be32 c)) L
        ("H5 output generation loop limit reached") 0 100
        (hf (h5sep ++ serG1 k_g1 ++ id_u ++ id_ms ++ serG1 x_pub ++ serG1 y_pub)) := rfl
  rw [hb] at h
  rcases @kdfLoop_err
    (fun c => hf (h5sep ++ serG1 k_g1 ++ id_u ++ id_ms ++ serG1 x_pub ++ serG1 y_pub ++ be32 c)) L
    ("H5 output generation loop limit reached") 100 0
    (hf (h5sep ++ serG1 k_g1 ++ id_u ++ id_ms ++ serG1 x_pub ++ serG1 y_pub)) with ⟨o, ho⟩ | herr
  · rw [ho] at h
    cases h
  · rw [herr, Except.error.injEq] at h
    exact h.symm

/-! ## Claim theorems -/

/-- Claim C10: `is_timestamp_fresh` is total and panic-free: with any clock
value it takes the non-underflowing subtraction branch (never `none`, which
models a u64 underflow panic) and returns the 300-second window test on the
absolute difference. -/
theorem claim_C10 (currentTs ts : Nat) :
    is_timestamp_fresh currentTs ts = some (decide (Nat.dist currentTs ts ≤ 300)) :=
  fresh_total currentTs ts

/-- Claim C5: freshness holds exactly when the absolute clock difference is at
most 300 seconds, in both directions; a request or response whose timestamp
differs from the clock by more than 300 seconds is rejected with
`InvalidTimestamp` before anything else is examined. -/
theorem claim_C5 :
    (∀ (currentTs ts : Nat),
      is_timestamp_fresh currentTs ts = some true ↔ Nat.dist currentTs ts ≤ 300) ∧
    (∀ (F : Type) [Field F] [DecidableEq F] (hf : List Nat → List Nat)
        (serG1 serGT : F → List Nat) (deserG1 : List Nat → Option F)
        (ssk : ServerSecretKey F) (req : UserAuthRequest F) (own_id : List Nat)
        (prms : SystemParameters F) (y : F) (now_s t_ms k : Nat),
      300 < Nat.dist now_s req.timestamp →
      process_user_request hf serG1 serGT deserG1 ssk req own_id prms y now_s t_ms k =
        .error .InvalidTimestamp) ∧
    (∀ (F : Type) [Field F] [DecidableEq F] (hf : List Nat → List Nat)
        (serG1 : F → List Nat) (usk : UserSecretKey F) (st : UserState F)
        (resp : ServerAuthResponse F) (server_id : List Nat) (prms : SystemParameters F)
        (k now_u : Nat),
      300 < Nat.dist now_u resp.timestamp →
      process_server_response hf serG1 usk st resp server_id prms k now_u =
        .error .InvalidTimestamp) := by
  refine ⟨?_, ?_, ?_⟩
  · intro currentTs ts
    rw [fresh_total]
    simp
  · intro F _ _ hf serG1 serGT deserG1 ssk req own_id prms y now_s t_ms k hdist
    simp only [process_user_request]
    rw [fresh_total]
    have : decide (Nat.dist now_s req.timestamp ≤ 300) = false := by
      simp
      omega
    rw [this]
    rfl
  · intro F _ _ hf serG1 usk st resp server_id prms k now_u hdist
    simp only [process_server_response]
    rw [fresh_total]
    have : decide (Nat.dist now_u resp.timestamp ≤ 300) = false := by
      simp
      omega
    rw [this]
    rfl

/-- Claim C7: every user secret key issued by `register_user` under parameters
from `setup` satisfies the verification equation
`SID_u . P = R_u + H0(id, R_u) . P_pub` (in discrete-log form over the G1
generator). -/
theorem claim_C7 {F : Type} [Field F] [DecidableEq F]
    (hf : List Nat → List Nat) (serG1 : F → List Nat)
    (s s_hat r_u_scalar : F) (id_u : List Nat)
    (prms : SystemParameters F) (msk : MasterSecretKey F) (usk : UserSecretKey F)
    (hsetup : setup s s_hat = .ok (prms, msk))
    (hreg : register_user hf serG1 msk id_u r_u_scalar = .ok usk) :
    prms.p * usk.sid_u = usk.r_u + prms.p_pub * h0 hf serG1 id_u usk.r_u := by
  obtain ⟨hs, hsh, hprms, hmsk⟩ := setup_ok_inv hsetup
  subst hprms; subst hmsk
  obtain ⟨hr, husk⟩ := register_user_ok_inv hreg
  subst husk
  dsimp only
  ring

/-- Claim C2 (code-bug evidence): the master-key share round trip of the source
does NOT return the original scalars.  `into_shares` serializes the Montgomery
limbs (`value * R mod q`) while `from_shares` reinterprets the recovered limbs
as plain integer values, so with a Shamir layer that faithfully returns the
dealt secret (hypothesis `hrec`, the contract of the blahaj crate), the
round trip multiplies both scalars by `R = 2^256 mod q ≠ 1`.  This contradicts
the in-repo test `test_shares`, which asserts the round trip is the identity. -/
theorem claim_C2 {Share : Type} (dealer : Nat → List Nat → List Share)
    (recover : Nat → List Share → Except String (List Nat)) (s s_hat n : Nat)
    (hrec : recover n (dealer n (mskToBytes s s_hat)) = .ok (mskToBytes s s_hat)) :
    from_shares recover (into_shares dealer s s_hat n) n =
      .ok (s * frR % frQ, s_hat * frR % frQ) ∧ frR ≠ 1 := by
  constructor
  · simp only [into_shares, from_shares, hrec]
    have hlen : (mskToBytes s s_hat).length = 64 := by
      rw [mskToBytes, List.length_append, leBytesN_length, leBytesN_length]
    rw [if_pos hlen]
    have htake : (mskToBytes s s_hat).take 32 = leBytesN 32 (s * frR % frQ) := by
      rw [mskToBytes]
      exact List.take_left' (leBytesN_length _ _)
    have hdrop : (mskToBytes s s_hat).drop 32 = leBytesN 32 (s_hat * frR % frQ) := by
      rw [mskToBytes]
      exact List.drop_left' (leBytesN_length _ _)
    have hqlt : frQ < 256 ^ 32 := by decide
    have hq0 : 0 < frQ := by decide
    rw [htake, hdrop, leNat_leBytesN _ _ (lt_trans (Nat.mod_lt _ hq0) hqlt),
      leNat_leBytesN _ _ (lt_trans (Nat.mod_lt _ hq0) hqlt)]
    simp only [from_bigint, if_pos (Nat.mod_lt _ hq0)]
  · decide

/-- Claim C6 counterexample: a fresh request whose `N` is no longer than
96 bytes is rejected, but with the `Deserialization` error kind, not
`InvalidInput` as the claim states. -/
theorem claim_C6_counterexample :
    process_user_request hfZero serG1Z serGTZ deserG1Z wSsk w6req [9] wParams 1 1000 1001 32 =
      .error (.Deserialization ("N parameter too short to contain Ru and X")) ∧
    isInvalidInputErr
      (process_user_request hfZero serG1Z serGTZ deserG1Z wSsk w6req [9] wParams 1 1000 1001 32)
      = false := by
  constructor
  · decide
  · decide

/-- Claim C6 (amended): for every request whose `N` is no longer than
2 x |compressed G1| = 96 bytes and whose timestamp is fresh,
`process_user_request` fails with the `Deserialization` error
"N parameter too short to contain Ru and X". -/
theorem claim_C6 {F : Type} [Field F] [DecidableEq F]
    (hf : List Nat → List Nat) (serG1 serGT : F → List Nat) (deserG1 : List Nat → Option F)
    (ssk : ServerSecretKey F) (req : UserAuthRequest F) (own_id : List Nat)
    (prms : SystemParameters F) (y : F) (now_s t_ms k : Nat)
    (hfresh : is_timestamp_fresh now_s req.timestamp = some true)
    (hshort : req.n.length ≤ 96) :
    process_user_request hf serG1 serGT deserG1 ssk req own_id prms y now_s t_ms k =
      .error (.Deserialization ("N parameter too short to contain Ru and X")) := by
  simp only [process_user_request]
  split
  · rename_i heq
    rw [hfresh] at heq
    cases heq
  · rename_i fresh heq
    rw [hfresh, Option.some.injEq] at heq
    subst heq
    rw [if_neg (by decide : ¬ (true = false))]
    rw [if_pos (by omega : req.n.length ≤ 48 * 2)]

/-- Claim C8: the H2 and H5 KDF outputs are prefix-consistent: at any two
lengths at which they succeed on the same inputs, the shorter output is the
prefix of the longer one. -/
theorem claim_C8 :
    (∀ (F : Type) [Field F] (hf : List Nat → List Nat) (serGT : F → List Nat) (g_x : F)
        (L1 L2 : Nat) (o1 o2 : List Nat), L1 ≤ L2 →
      h2 hf serGT g_x L1 = .ok o1 → h2 hf serGT g_x L2 = .ok o2 → o1 = o2.take L1) ∧
    (∀ (F : Type) [Field F] (hf : List Nat → List Nat) (serG1 : F → List Nat) (k_g1 : F)
        (id_u id_ms : List Nat) (x_pub y_pub : F) (L1 L2 : Nat) (o1 o2 : List Nat), L1 ≤ L2 →
      h5 hf serG1 k_g1 id_u id_ms x_pub y_pub L1 = .ok o1 →
      h5 hf serG1 k_g1 id_u id_ms x_pub y_pub L2 = .ok o2 → o1 = o2.take L1) := by
  constructor
  · intro F _ hf serGT g_x L1 L2 o1 o2 hle ho1 ho2
    rw [h2_ok_value ho1, h2_ok_value ho2, take_take_of_le hle]
  · intro F _ hf serG1 k_g1 id_u id_ms x_pub y_pub L1 L2 o1 o2 hle ho1 ho2
    rw [h5_ok_value ho1, h5_ok_value ho2, take_take_of_le hle]

theorem str_length_append (a b : String) : (a ++ b).length = a.length + b.length := by
  rcases a with ⟨da⟩
  rcases b with ⟨db⟩
  show (da ++ db).length = da.length + db.length
  exact List.length_append da db

theorem h2MismatchUser_ne_h2loop (a b : Nat) :
    h2MismatchUser a b ≠ "H2 output generation loop limit reached" := by
  intro h
  have hl := congrArg String.length h
  rw [h2MismatchUser] at hl
  simp only [str_length_append] at hl
  have e1 : ("H2 output length (" : String).length = 18 := rfl
  have e2 : (") does not match payload length (" : String).length = 33 := rfl
  have e3 : (")" : String).length = 1 := rfl
  have e4 : ("H2 output generation loop limit reached" : String).length = 39 := rfl
  rw [e1, e2, e3, e4] at hl
  omega

theorem h2MismatchServer_ne_h2loop (a b : Nat) :
    h2MismatchServer a b ≠ "H2 output generation loop limit reached" := by
  intro h
  have hl := congrArg String.length h
  rw [h2MismatchServer] at hl
  simp only [str_length_append] at hl
  have e1 : ("H2 output length (" : String).length = 18 := rfl
  have e2 : (") does not match N length (" : String).length = 27 := rfl
  have e3 : (")" : String).length = 1 := rfl
  have e4 : ("H2 output generation loop limit reached" : String).length = 39 := rfl
  rw [e1, e2, e3, e4] at hl
  omega

theorem h2MismatchServer_ne_h5loop (a b : Nat) :
    h2MismatchServer a b ≠ "H5 output generation loop limit reached" := by
  intro h
  have hl := congrArg String.length h
  rw [h2MismatchServer] at hl
  simp only [str_length_append] at hl
  have e1 : ("H2 output length (" : String).length = 18 := rfl
  have e2 : (") does not match N length (" : String).length = 27 := rfl
  have e3 : (")" : String).length = 1 := rfl
  have e4 : ("H5 output generation loop limit reached" : String).length = 39 := rfl
  rw [e1, e2, e3, e4] at hl
  omega

/-- Claim C3 counterexample: on a concrete GT serialization, the H2 of the
code differs from the claimed all-counter construction, because the first
block of the code hashes tag and input WITHOUT a counter while the claim
appends be32(0) already to the first block. -/
theorem claim_C3_counterexample :
    h2 sha3_256 serGTZ (0 : ZMod 2) 32 ≠ h2SpecClaim serGTZ (0 : ZMod 2) 32 := by
  decide

/-- Claim C3 (amended): every successful `h2` output is the truncation of the
stream formed by the counterless initial block SHA3-256(tag, compress(gx))
followed by the extension blocks SHA3-256(tag, compress(gx), be32(counter))
for counter = 0, 1, 2, ...; `h2` fails, with exactly the loop-limit
`HashError`, precisely on requested lengths above 3232 bytes; and `h5` behaves
the same way over its fixed inputs. -/
theorem claim_C3 :
    (∀ (F : Type) [Field F] (hf : List Nat → List Nat) (serGT : F → List Nat) (g_x : F)
        (len : Nat) (out : List Nat),
      h2 hf serGT g_x len = .ok out → out = (h2stream hf serGT g_x).take len) ∧
    (∀ (F : Type) [Field F] (serGT : F → List Nat) (g_x : F) (len : Nat),
      h2 sha3_256 serGT g_x len =
        .error (.HashError ("H2 output generation loop limit reached")) ↔ 3232 < len) ∧
    (∀ (F : Type) [Field F] (hf : List Nat → List Nat) (serG1 : F → List Nat) (k_g1 : F)
        (id_u id_ms : List Nat) (x_pub y_pub : F) (len : Nat) (out : List Nat),
      h5 hf serG1 k_g1 id_u id_ms x_pub y_pub len = .ok out →
        out = (h5stream hf serG1 k_g1 id_u id_ms x_pub y_pub).take len) ∧
    (∀ (F : Type) [Field F] (serG1 : F → List Nat) (k_g1 : F) (id_u id_ms : List Nat)
        (x_pub y_pub : F) (len : Nat),
      h5 sha3_256 serG1 k_g1 id_u id_ms x_pub y_pub len =
        .error (.HashError ("H5 output generation loop limit reached")) ↔ 3232 < len) := by
  refine ⟨?_, ?_, ?_, ?_⟩
  · intro F _ hf serGT g_x len out hout
    exact h2_ok_value hout
  · intro F _ serGT g_x len
    exact h2_err_iff sha3_256_length
  · intro F _ hf serG1 k_g1 id_u id_ms x_pub y_pub len out hout
    exact h5_ok_value hout
  · intro F _ serG1 k_g1 id_u id_ms x_pub y_pub len
    exact h5_err_iff sha3_256_length

/-- Claim C9: with the 32-byte base hash, `h2` succeeds with exactly the
requested number of bytes for every requested length up to 3232 (the initial
block plus 100 counter blocks), and consequently the H2 length-mismatch
`HashError` branches in `initiate_authentication` and `process_user_request`
can never fire. -/
theorem claim_C9 :
    (∀ (F : Type) [Field F] (serGT : F → List Nat) (g_x : F) (len : Nat), len ≤ 3232 →
      okLength (h2 sha3_256 serGT g_x len) = some len) ∧
    (∀ (F : Type) [Field F] [DecidableEq F] (hf : List Nat → List Nat)
        (serG1 serGT : F → List Nat) (usk : UserSecretKey F) (user_id server_id : List Nat)
        (params : SystemParameters F) (x : F) (now_u : Nat) (a b : Nat),
      (∀ m, (hf m).length = 32) →
      initiate_authentication hf serG1 serGT usk user_id server_id params x now_u ≠
        .error (.HashError (h2MismatchUser a b))) ∧
    (∀ (F : Type) [Field F] [DecidableEq F] (hf : List Nat → List Nat)
        (serG1 serGT : F → List Nat) (deserG1 : List Nat → Option F)
        (ssk : ServerSecretKey F) (req : UserAuthRequest F) (own_id : List Nat)
        (prms : SystemParameters F) (y : F) (now_s t_ms k : Nat) (a b : Nat),
      (∀ m, (hf m).length = 32) →
      process_user_request hf serG1 serGT deserG1 ssk req own_id prms y now_s t_ms k ≠
        .error (.HashError (h2MismatchServer a b))) := by
  refine ⟨?_, ?_, ?_⟩
  · intro F _ serGT g_x len hlen
    obtain ⟨out, hout⟩ := (@h2_ok_iff F _ sha3_256 sha3_256_length serGT g_x len).mpr hlen
    rw [hout]
    show some out.length = some len
    rw [h2_ok_length sha3_256_length hout]
  · intro F _ _ hf serG1 serGT usk user_id server_id params x now_u a b hhf h
    simp only [initiate_authentication] at h
    split at h
    · simp at h
    · rename_i hx
      split at h
      · rename_i e heq
        have hmsg := h2_error_msg heq
        subst hmsg
        rw [Except.error.injEq, AAKAError.HashError.injEq] at h
        exact h2MismatchUser_ne_h2loop a b h.symm
      · rename_i h2out heq
        split at h
        · rename_i hcond
          refine hcond ?_
          rw [h2_ok_length hhf heq]
          simp only [List.length_append]
        · simp at h
  · intro F _ _ hf serG1 serGT deserG1 ssk req own_id prms y now_s t_ms k a b hhf h
    simp only [process_user_request] at h
    split at h
    · simp at h
    · rename_i fresh hfresh
      split at h
      · simp at h
      · rename_i hfr
        split at h
        · simp at h
        · rename_i hlen
          split at h
          · rename_i e heq
            have hmsg := h2_error_msg heq
            subst hmsg
            rw [Except.error.injEq, AAKAError.HashError.injEq] at h
            exact h2MismatchServer_ne_h2loop a b h.symm
          · rename_i h2out heq
            split at h
            · rename_i hcond
              exact hcond (h2_ok_length hhf heq)
            · split at h
              · simp at h
              · rename_i rU hrU
                split at h
                · simp at h
                · rename_i xP hxP
                  split at h
                  · simp at h
                  · split at h
                    · simp at h
                    · split at h
                      · rename_i e heq5
                        have hmsg := h5_error_msg heq5
                        subst hmsg
                        rw [Except.error.injEq, AAKAError.HashError.injEq] at h
                        exact h2MismatchServer_ne_h5loop a b h.symm
                      · simp at h

/-- Claim C1: in every honest full protocol run, with setup, both registrations,
initiation, a server that accepts the request, and a user that accepts the
response, all with the same key length and with both freshness checks passing
(implied by the accepting runs), the user-derived session-key bytes equal the
server-derived session-key bytes. -/
theorem claim_C1 {F : Type} [Field F] [DecidableEq F]
    (hf : List Nat → List Nat) (serG1 serGT : F → List Nat) (deserG1 : List Nat → Option F)
    (hser : ∀ a : F, (serG1 a).length = 48)
    (hround : ∀ a : F, deserG1 (serG1 a) = some a)
    (s s_hat r_u_scalar x y : F) (id_u id_ms : List Nat) (t_u now_s t_ms now_u2 k : Nat)
    (prms : SystemParameters F) (msk : MasterSecretKey F) (usk : UserSecretKey F)
    (ssk : ServerSecretKey F) (req : UserAuthRequest F) (st : UserState F)
    (resp : ServerAuthResponse F) (sk_ms sk_u : List Nat)
    (hsetup : setup s s_hat = .ok (prms, msk))
    (hreg_u : register_user hf serG1 msk id_u r_u_scalar = .ok usk)
    (hreg_s : register_server hf msk id_ms = .ok ssk)
    (hinit : initiate_authentication hf serG1 serGT usk id_u id_ms prms x t_u = .ok (req, st))
    (hsrv : process_user_request hf serG1 serGT deserG1 ssk req id_ms prms y now_s t_ms k =
      .ok (resp, sk_ms))
    (husr : process_server_response hf serG1 usk st resp id_ms prms k now_u2 = .ok sk_u) :
    sk_u = sk_ms := by
  obtain ⟨hs, hsh, hprms, hmsk⟩ := setup_ok_inv hsetup
  subst hprms; subst hmsk
  obtain ⟨hrne, husk⟩ := register_user_ok_inv hreg_u
  subst husk
  obtain ⟨hd, hssk⟩ := register_server_ok_inv hreg_s
  subst hssk
  obtain ⟨hx, mask, hmask, hmlen, hreq, hst⟩ := initiate_ok_inv hinit
  subst hreq; subst hst
  obtain ⟨hfreshS, hlenN, out, hout, houtlen, rU, xP, hrU, hxP, hsig, hy, hsk5, hresp⟩ :=
    process_user_request_ok_inv hsrv
  subst hresp
  obtain ⟨hfreshU, ht4, hsk⟩ := process_server_response_ok_inv husr
  dsimp only at hmask hmlen hout houtlen hrU hxP hsig hsk5 hsk ht4 hlenN
  -- the pairing the server computes recovers the same GT element the user used
  have hgx : (1 * s_hat + 1 * h1 hf id_ms) * x * (1 * (s_hat + h1 hf id_ms)⁻¹) = 1 * x := by
    have hd' : s_hat + h1 hf id_ms ≠ 0 := by
      simpa using hd
    field_simp
  rw [hgx] at hout
  -- the request length equals the payload length the user masked
  have hmlen' : mask.length =
      (id_u ++ serG1 (1 * r_u_scalar) ++ serG1 (1 * x)).length := hmlen
  have hNlen : ((mask.zip (id_u ++ serG1 (1 * r_u_scalar) ++ serG1 (1 * x))).map
      fun q => q.1 ^^^ q.2).length =
      id_u.length + (serG1 (1 * r_u_scalar)).length + (serG1 (1 * x)).length := by
    rw [List.length_map, List.length_zip, hmlen', Nat.min_self]
    simp only [List.length_append]
  rw [hNlen] at hout
  rw [hmask] at hout
  have hmaskout : mask = out := by
    rwa [Except.ok.injEq] at hout
  subst hmaskout
  -- unmasking recovers the payload
  have hP : ((mask.zip ((mask.zip (id_u ++ serG1 (1 * r_u_scalar) ++ serG1 (1 * x))).map
      fun q => q.1 ^^^ q.2)).map fun q => q.1 ^^^ q.2) =
      id_u ++ serG1 (1 * r_u_scalar) ++ serG1 (1 * x) :=
    xor_unmask _ _ hmlen'
  rw [hP] at hrU hxP hsk5 hsig ht4 hsk
  rw [hNlen, hser, hser] at hrU hxP hsk5 hsig ht4 hsk
  have ha1 : id_u.length + 48 + 48 - 2 * 48 = id_u.length := by omega
  rw [ha1] at hrU hxP hsk5 hsig ht4 hsk
  -- parse the three payload components
  have hdropR : (id_u ++ serG1 (1 * r_u_scalar) ++ serG1 (1 * x)).drop id_u.length =
      serG1 (1 * r_u_scalar) ++ serG1 (1 * x) := by
    rw [List.append_assoc]
    exact List.drop_left' rfl
  have htakeR : (serG1 (1 * r_u_scalar) ++ serG1 (1 * x)).take 48 = serG1 (1 * r_u_scalar) :=
    List.take_left' (hser _)
  have hdropX : (id_u ++ serG1 (1 * r_u_scalar) ++ serG1 (1 * x)).drop (id_u.length + 48) =
      serG1 (1 * x) := by
    refine List.drop_left' ?_
    rw [List.length_append, hser]
  have htakeI : (id_u ++ serG1 (1 * r_u_scalar) ++ serG1 (1 * x)).take id_u.length = id_u := by
    rw [List.append_assoc]
    exact List.take_left' rfl
  rw [hdropR, htakeR, hround] at hrU
  rw [hdropX, hround] at hxP
  have hrU' : rU = 1 * r_u_scalar := by
    rw [Option.some.injEq] at hrU
    exact hrU.symm
  have hxP' : xP = 1 * x := by
    rw [Option.some.injEq] at hxP
    exact hxP.symm
  subst hrU'; subst hxP'
  rw [htakeI] at hsk5 ht4 hsk
  -- the two session-key points agree in the group
  have hK : (1 : F) * y * ((r_u_scalar + s * h0 hf serG1 id_u (1 * r_u_scalar)) +
      x * h4 hf serG1 id_u id_ms (1 * x) (1 * y) t_ms) =
      (1 * x * h4 hf serG1 id_u id_ms (1 * x) (1 * y) t_ms +
        (1 * r_u_scalar + 1 * s * h0 hf serG1 id_u (1 * r_u_scalar))) * y := by
    ring
  rw [hK] at hsk
  rw [hsk5] at hsk
  rw [Except.ok.injEq] at hsk
  exact hsk.symm

/-- Claim C4: (1) tampering an accepted honest request by adding one to its
signature scalar makes the server reject it with
`SignatureVerificationFailed` (at any processing time at which the request
timestamp is still fresh); (2) in general, once the timestamp, length, mask
and deserialization steps go through, the server fails with
`SignatureVerificationFailed` exactly when the unmasked signature equation
`sigma . P = W + H3(id, R, X, T) . X` does not hold. -/
theorem claim_C4 :
    (∀ (F : Type) [Field F] [DecidableEq F] (hf : List Nat → List Nat)
        (serG1 serGT : F → List Nat) (deserG1 : List Nat → Option F)
        (s s_hat r_u_scalar x y y2 : F) (id_u id_ms : List Nat)
        (t_u now_s t_ms now_s2 t_ms2 k k2 : Nat)
        (prms : SystemParameters F) (msk : MasterSecretKey F) (usk : UserSecretKey F)
        (ssk : ServerSecretKey F) (req : UserAuthRequest F) (st : UserState F)
        (z : ServerAuthResponse F × List Nat),
      setup s s_hat = .ok (prms, msk) →
      register_user hf serG1 msk id_u r_u_scalar = .ok usk →
      register_server hf msk id_ms = .ok ssk →
      initiate_authentication hf serG1 serGT usk id_u id_ms prms x t_u = .ok (req, st) →
      process_user_request hf serG1 serGT deserG1 ssk req id_ms prms y now_s t_ms k = .ok z →
      is_timestamp_fresh now_s2 req.timestamp = some true →
      process_user_request hf serG1 serGT deserG1 ssk
        { m := req.m, n := req.n, sigma := req.sigma + 1, timestamp := req.timestamp }
        id_ms prms y2 now_s2 t_ms2 k2 = .error .SignatureVerificationFailed) ∧
    (∀ (F : Type) [Field F] [DecidableEq F] (hf : List Nat → List Nat)
        (serG1 serGT : F → List Nat) (deserG1 : List Nat → Option F)
        (ssk : ServerSecretKey F) (req : UserAuthRequest F) (own_id : List Nat)
        (prms : SystemParameters F) (y : F) (now_s t_ms k : Nat) (out : List Nat) (rU xP : F),
      is_timestamp_fresh now_s req.timestamp = some true →
      96 < req.n.length →
      h2 hf serGT (req.m * ssk.sid_ms) req.n.length = .ok out →
      out.length = req.n.length →
      deserG1 ((((out.zip req.n).map fun q => q.1 ^^^ q.2).drop (req.n.length - 2 * 48)).take 48)
        = some rU →
      deserG1 (((out.zip req.n).map fun q => q.1 ^^^ q.2).drop (req.n.length - 2 * 48 + 48))
        = some xP →
      (process_user_request hf serG1 serGT deserG1 ssk req own_id prms y now_s t_ms k =
          .error .SignatureVerificationFailed ↔
        prms.p * req.sigma ≠
          (rU + prms.p_pub *
            h0 hf serG1 (((out.zip req.n).map fun q => q.1 ^^^ q.2).take (req.n.length - 2 * 48)) rU) +
          xP * h3 hf serG1 (((out.zip req.n).map fun q => q.1 ^^^ q.2).take (req.n.length - 2 * 48))
            rU xP req.timestamp)) := by
  constructor
  · intro F _ _ hf serG1 serGT deserG1 s s_hat r_u_scalar x y y2 id_u id_ms t_u now_s t_ms
      now_s2 t_ms2 k k2 prms msk usk ssk req st z hsetup hregu hregs hinit hsrv hfresh2
    obtain ⟨resp0, sk0⟩ := z
    obtain ⟨hfreshS, hlenN, out, hout, houtlen, rU, xP, hrU, hxP, hsig, hy, hsk5, hresp⟩ :=
      process_user_request_ok_inv hsrv
    obtain ⟨hs, hsh, hprms, hmsk⟩ := setup_ok_inv hsetup
    subst hprms
    rw [@process_user_request_run F _ _ hf serG1 serGT deserG1 ssk
        { m := req.m, n := req.n, sigma := req.sigma + 1, timestamp := req.timestamp }
        id_ms { p := 1, p_pub := 1 * s, p_pub_hat := 1 * s_hat, g := 1 } y2 now_s2 t_ms2 k2
        hfresh2
        (by show ¬ req.n.length ≤ 48 * 2
            omega)
        out hout houtlen rU xP hrU hxP]
    rw [if_pos ?_]
    dsimp only at hsig ⊢
    rw [← hsig]
    intro hEq
    simp only [one_mul] at hEq
    have h1 : req.sigma + 1 = req.sigma + 0 := by
      rw [add_zero]
      exact hEq
    exact one_ne_zero (add_left_cancel h1)
  · intro F _ _ hf serG1 serGT deserG1 ssk req own_id prms y now_s t_ms k out rU xP
      hfresh hlen hout houtlen hrU hxP
    rw [process_user_request_run hfresh (by omega) hout houtlen hrU hxP]
    constructor
    · intro hres
      by_contra hc
      rw [if_neg (not_ne_iff.mpr hc)] at hres
      split at hres
      · simp at hres
      · rcases hE : h5 hf serG1
          ((xP * h4 hf serG1 (((out.zip req.n).map fun q => q.1 ^^^ q.2).take (req.n.length - 2 * 48))
              own_id xP (prms.p * y) t_ms +
            (rU + prms.p_pub *
              h0 hf serG1 (((out.zip req.n).map fun q => q.1 ^^^ q.2).take (req.n.length - 2 * 48)) rU)) * y)
          (((out.zip req.n).map fun q => q.1 ^^^ q.2).take (req.n.length - 2 * 48))
          own_id xP (prms.p * y) k with e | sk
        · rw [hE] at hres
          have hmsg := h5_error_msg hE
          subst hmsg
          simp [Except.map] at hres
        · rw [hE] at hres
          simp [Except.map] at hres
    · intro hc
      rw [if_pos hc]

/-! ## Witnesses: concrete instantiations discharging each hypothesis -/

/-- The inverse in `register_server` does not reduce by evaluation (extended
gcd), so this witness equation is established by rewriting with `inv_one`. -/
theorem w_register_server : register_server hfZero wMsk [9] = .ok wSsk := by
  have hs : (h1 hfZero [9] : ZMod 2) = 0 := by decide
  simp only [register_server, wMsk, hs, add_zero]
  rw [if_neg one_ne_zero, inv_one, one_mul]
  rfl

theorem claim_C1_witness :
    setup (1 : ZMod 2) 1 = .ok (wParams, wMsk) ∧
    register_user hfZero serG1Z wMsk [7] 1 = .ok wUsk ∧
    register_server hfZero wMsk [9] = .ok wSsk ∧
    initiate_authentication hfZero serG1Z serGTZ wUsk [7] [9] wParams 1 1000 = .ok (wReq, wSt) ∧
    process_user_request hfZero serG1Z serGTZ deserG1Z wSsk wReq [9] wParams 1 1000 1001 32 =
      .ok (wResp, wKey) ∧
    process_server_response hfZero serG1Z wUsk wSt wResp [9] wParams 32 1001 = .ok wKey ∧
    wKey = wKey := by
  have a1 : setup (1 : ZMod 2) 1 = .ok (wParams, wMsk) := by decide
  have a2 : register_user hfZero serG1Z wMsk [7] 1 = .ok wUsk := by decide
  have a3 : register_server hfZero wMsk [9] = .ok wSsk := w_register_server
  have a4 : initiate_authentication hfZero serG1Z serGTZ wUsk [7] [9] wParams 1 1000 =
      .ok (wReq, wSt) := by decide
  have a5 : process_user_request hfZero serG1Z serGTZ deserG1Z wSsk wReq [9] wParams 1
      1000 1001 32 = .ok (wResp, wKey) := by decide
  have a6 : process_server_response hfZero serG1Z wUsk wSt wResp [9] wParams 32 1001 =
      .ok wKey := by decide
  exact ⟨a1, a2, a3, a4, a5, a6,
    claim_C1 hfZero serG1Z serGTZ deserG1Z (by decide) (by decide) 1 1 1 1 1 [7] [9]
      1000 1000 1001 1001 32 wParams wMsk wUsk wSsk wReq wSt wResp wKey wKey
      a1 a2 a3 a4 a5 a6⟩

theorem claim_C2_witness :
    w2recover 3 (w2dealer 3 (mskToBytes 1 0)) = .ok (mskToBytes 1 0) ∧
    (from_shares w2recover (into_shares w2dealer 1 0 3) 3 =
      .ok (1 * frR % frQ, 0 * frR % frQ) ∧ frR ≠ 1) ∧
    1 * frR % frQ ≠ 1 :=
  ⟨by decide, claim_C2 w2dealer w2recover 1 0 3 (by decide), by decide⟩

theorem claim_C3_witness :
    h2 sha3_256 serGTZ (0 : ZMod 2) 0 = .ok [] ∧
    ([] : List Nat) = (h2stream sha3_256 serGTZ (0 : ZMod 2)).take 0 ∧
    h5 sha3_256 serG1Z (0 : ZMod 2) [] [] 0 0 0 = .ok [] ∧
    ([] : List Nat) = (h5stream sha3_256 serG1Z (0 : ZMod 2) [] [] 0 0).take 0 ∧
    (h2 sha3_256 serGTZ (0 : ZMod 2) 3233 =
      .error (.HashError ("H2 output generation loop limit reached")) ↔ 3232 < 3233) := by
  refine ⟨by decide, ?_, by decide, ?_, ?_⟩
  · exact claim_C3.1 (ZMod 2) sha3_256 serGTZ 0 0 [] (by decide)
  · exact claim_C3.2.2.1 (ZMod 2) sha3_256 serG1Z 0 [] [] 0 0 0 [] (by decide)
  · exact claim_C3.2.1 (ZMod 2) serGTZ 0 3233

theorem claim_C4_witness :
    (process_user_request hfZero serG1Z serGTZ deserG1Z wSsk
        { m := wReq.m, n := wReq.n, sigma := wReq.sigma + 1, timestamp := wReq.timestamp }
        [9] wParams 1 1000 1001 32 = .error .SignatureVerificationFailed) ∧
    (process_user_request hfZero serG1Z serGTZ deserG1Z wSsk wReq [9] wParams 1 1000 1001 32 =
        .error .SignatureVerificationFailed ↔
      wParams.p * wReq.sigma ≠
        ((1 : ZMod 2) + wParams.p_pub *
          h0 hfZero serG1Z ((((List.replicate 97 0).zip wReq.n).map fun q => q.1 ^^^ q.2).take
            (wReq.n.length - 2 * 48)) 1) +
        (1 : ZMod 2) * h3 hfZero serG1Z ((((List.replicate 97 0).zip wReq.n).map
            fun q => q.1 ^^^ q.2).take (wReq.n.length - 2 * 48)) 1 1 wReq.timestamp) := by
  constructor
  · exact claim_C4.1 (ZMod 2) hfZero serG1Z serGTZ deserG1Z 1 1 1 1 1 1 [7] [9]
      1000 1000 1001 1000 1001 32 32 wParams wMsk wUsk wSsk wReq wSt (wResp, wKey)
      (by decide) (by decide) w_register_server (by decide) (by decide) (by decide)
  · exact claim_C4.2 (ZMod 2) hfZero serG1Z serGTZ deserG1Z wSsk wReq [9] wParams 1
      1000 1001 32 (List.replicate 97 0) 1 1
      (by decide) (by decide) (by decide) (by decide) (by decide) (by decide)

theorem claim_C5_witness :
    300 < Nat.dist 1400 wReq.timestamp ∧
    process_user_request hfZero serG1Z serGTZ deserG1Z wSsk wReq [9] wParams 1 1400 1401 32 =
      .error .InvalidTimestamp ∧
    300 < Nat.dist 1402 wResp.timestamp ∧
    process_server_response hfZero serG1Z wUsk wSt wResp [9] wParams 32 1402 =
      .error .InvalidTimestamp :=
  ⟨by decide,
   claim_C5.2.1 (ZMod 2) hfZero serG1Z serGTZ deserG1Z wSsk wReq [9] wParams 1 1400 1401 32
     (by decide),
   by decide,
   claim_C5.2.2 (ZMod 2) hfZero serG1Z wUsk wSt wResp [9] wParams 32 1402 (by decide)⟩

theorem claim_C6_witness :
    is_timestamp_fresh 1000 w6req.timestamp = some true ∧
    w6req.n.length ≤ 96 ∧
    process_user_request hfZero serG1Z serGTZ deserG1Z wSsk w6req [9] wParams 1 1000 1001 32 =
      .error (.Deserialization ("N parameter too short to contain Ru and X")) :=
  ⟨by decide, by decide,
   claim_C6 hfZero serG1Z serGTZ deserG1Z wSsk w6req [9] wParams 1 1000 1001 32
     (by decide) (by decide)⟩

theorem claim_C7_witness :
    setup (1 : ZMod 2) 1 = .ok (wParams, wMsk) ∧
    register_user hfZero serG1Z wMsk [7] 1 = .ok wUsk ∧
    wParams.p * wUsk.sid_u = wUsk.r_u + wParams.p_pub * h0 hfZero serG1Z [7] wUsk.r_u :=
  ⟨by decide, by decide,
   claim_C7 hfZero serG1Z 1 1 1 [7] wParams wMsk wUsk (by decide) (by decide)⟩

theorem claim_C8_witness :
    (3 : Nat) ≤ 5 ∧
    h2 hfZero serGTZ (0 : ZMod 2) 3 = .ok [0, 0, 0] ∧
    h2 hfZero serGTZ (0 : ZMod 2) 5 = .ok [0, 0, 0, 0, 0] ∧
    [0, 0, 0] = [0, 0, 0, 0, 0].take 3 ∧
    h5 hfZero serG1Z (0 : ZMod 2) [7] [9] 0 0 4 = .ok [0, 0, 0, 0] ∧
    h5 hfZero serG1Z (0 : ZMod 2) [7] [9] 0 0 6 = .ok [0, 0, 0, 0, 0, 0] ∧
    [0, 0, 0, 0] = [0, 0, 0, 0, 0, 0].take 4 := by
  refine ⟨by decide, by decide, by decide, ?_, by decide, by decide, ?_⟩
  · exact claim_C8.1 (ZMod 2) hfZero serGTZ 0 3 5 [0, 0, 0] [0, 0, 0, 0, 0]
      (by decide) (by decide) (by decide)
  · exact claim_C8.2 (ZMod 2) hfZero serG1Z 0 [7] [9] 0 0 4 6 [0, 0, 0, 0] [0, 0, 0, 0, 0, 0]
      (by decide) (by decide) (by decide)

theorem claim_C9_witness :
    (0 : Nat) ≤ 3232 ∧
    okLength (h2 sha3_256 serGTZ (0 : ZMod 2) 0) = some 0 ∧
    initiate_authentication sha3_256 serG1Z serGTZ wUsk [7] [9] wParams 1 1000 ≠
      .error (.HashError (h2MismatchUser 3 4)) ∧
    process_user_request sha3_256 serG1Z serGTZ deserG1Z wSsk wReq [9] wParams 1 1000 1001 32 ≠
      .error (.HashError (h2MismatchServer 3 4)) := by
  refine ⟨by decide, ?_, ?_, ?_⟩
  · exact claim_C9.1 (ZMod 2) serGTZ 0 0 (by decide)
  · exact claim_C9.2.1 (ZMod 2) sha3_256 serG1Z serGTZ wUsk [7] [9] wParams 1 1000 3 4
      sha3_256_length
  · exact claim_C9.2.2 (ZMod 2) sha3_256 serG1Z serGTZ deserG1Z wSsk wReq [9] wParams 1
      1000 1001 32 3 4 sha3_256_length
